import Mathlib

/-! Verification of the l0ttie playback-mode engine and fit/layout transform.
    The Rust source computes in `f32`/`f64`; the embedding idealizes that
    floating-point arithmetic as exact rational arithmetic over `ℚ`. -/

namespace L0ttie

/-- Rust floating-point remainder `t % d` (remainder of truncating division,
    result carries the sign of the dividend), in exact rational arithmetic:
    `t - d * trunc (t / d)`, where truncation is floor for a nonnegative
    quotient and ceiling for a negative one. -/
def frem (t d : ℚ) : ℚ :=
  if 0 ≤ t / d then t - d * ⌊t / d⌋ else t - d * ⌈t / d⌉

/-- Playback mode enum from `src/mode.rs`. -/
inductive Mode
  | forward
  | reverse
  | bounce
  | reverseBounce
deriving DecidableEq

/-- Embedding of `Mode::next_frame` from `src/mode.rs` (the stateless
    time-sampling discipline): resolve a requested time against the animation
    duration under the given mode and loop flag. The source casts the `f64`
    time to `f32` first, an identity in the `ℚ` idealization. -/
def Mode.next_frame (mode : Mode) (time : ℚ) (duration : ℚ)
    (loop_animation : Bool) : ℚ :=
  if duration ≤ 0 then 0
  else
    match mode with
    | Mode.forward =>
        if loop_animation then frem time duration else min time duration
    | Mode.reverse =>
        if loop_animation then duration - frem time duration
        else max (duration - time) 0
    | Mode.bounce =>
        let cycle_duration := 2 * duration
        if loop_animation then
          let cycle_time := frem time cycle_duration
          if cycle_time ≤ duration then cycle_time
          else cycle_duration - cycle_time
        else if time ≤ duration then time
        else if time ≤ cycle_duration then cycle_duration - time
        else 0
    | Mode.reverseBounce =>
        let cycle_duration := 2 * duration
        if loop_animation then
          let cycle_time := frem time cycle_duration
          if cycle_time ≤ duration then duration - cycle_time
          else cycle_time - duration
        else if time ≤ duration then duration - time
        else if time ≤ cycle_duration then time - duration
        else duration

/-- Mathematical modulus used by the reference table of spec section 4.1
    (nonnegative remainder of floor division). -/
def specMod (t d : ℚ) : ℚ := t - d * ⌊t / d⌋

/-- Reference piecewise definition of spec section 4.1, written from the
    spec's table for claim C1. -/
def position_spec (mode : Mode) (t d : ℚ) (loop_animation : Bool) : ℚ :=
  match mode with
  | Mode.forward =>
      if loop_animation then specMod t d else min t d
  | Mode.reverse =>
      if loop_animation then d - specMod t d else max (d - t) 0
  | Mode.bounce =>
      if loop_animation then
        let c := specMod t (2 * d)
        if c ≤ d then c else 2 * d - c
      else if t ≤ d then t
      else if t ≤ 2 * d then 2 * d - t
      else 0
  | Mode.reverseBounce =>
      if loop_animation then
        let c := specMod t (2 * d)
        if c ≤ d then d - c else c - d
      else if t ≤ d then d - t
      else if t ≤ 2 * d then t - d
      else d

theorem frem_eq_specMod (t d : ℚ) (ht : 0 ≤ t) (hd : 0 < d) :
    frem t d = specMod t d := by
  unfold frem specMod
  rw [if_pos (div_nonneg ht hd.le)]

theorem specMod_nonneg (t d : ℚ) (hd : 0 < d) :
    0 ≤ specMod t d := by
  unfold specMod
  have h1 : specMod t d = d * Int.fract (t / d) := by
    unfold specMod Int.fract
    field_simp
  have h2 : 0 ≤ Int.fract (t / d) := Int.fract_nonneg _
  have := mul_nonneg hd.le h2
  unfold specMod at h1
  linarith [h1]

theorem specMod_lt (t d : ℚ) (hd : 0 < d) : specMod t d < d := by
  have h1 : specMod t d = d * Int.fract (t / d) := by
    unfold specMod Int.fract
    field_simp
  have h2 : Int.fract (t / d) < 1 := Int.fract_lt_one _
  have h3 : d * Int.fract (t / d) < d * 1 := by
    exact mul_lt_mul_of_pos_left h2 hd
  rw [h1]
  linarith

theorem specMod_period (t d : ℚ) (hd : 0 < d) :
    specMod (t + d) d = specMod t d := by
  unfold specMod
  have hdne : d ≠ 0 := hd.ne'
  have h1 : (t + d) / d = t / d + 1 := by
    field_simp
  rw [h1]
  have h2 : ⌊t / d + 1⌋ = ⌊t / d⌋ + 1 := by
    exact_mod_cast Int.floor_add_one (t / d)
  rw [h2]
  push_cast
  ring

/-- Claim C1: for every mode, requested time `t ≥ 0`, duration `d > 0` and
    both loop flags, the stateless `Mode::next_frame` equals the reference
    piecewise definition of spec section 4.1. -/
theorem c1_next_frame_matches_reference (mode : Mode) (t d : ℚ)
    (loop_animation : Bool) (ht : 0 ≤ t) (hd : 0 < d) :
    Mode.next_frame mode t d loop_animation =
      position_spec mode t d loop_animation := by
  have h2d : (0 : ℚ) < 2 * d := by linarith
  have e1 : frem t d = specMod t d := frem_eq_specMod t d ht hd
  have e2 : frem t (2 * d) = specMod t (2 * d) := frem_eq_specMod t (2 * d) ht h2d
  cases mode <;> cases loop_animation <;>
    simp [Mode.next_frame, position_spec, hd.not_le, e1, e2]

/-- Witness for C1 at mode Forward, `t = 3`, `d = 10`, no loop. -/
theorem c1_next_frame_matches_reference_witness :
    (0 : ℚ) ≤ 3 ∧ (0 : ℚ) < 10 ∧
      Mode.next_frame Mode.forward 3 10 false =
        position_spec Mode.forward 3 10 false :=
  ⟨by decide, by decide,
    c1_next_frame_matches_reference Mode.forward 3 10 false (by decide) (by decide)⟩

/-- Claim C3: for every mode, time and loop flag, a nonpositive duration makes
    the stateless `Mode::next_frame` return exactly 0. -/
theorem c3_nonpositive_duration_zero (mode : Mode) (t d : ℚ)
    (loop_animation : Bool) (hd : d ≤ 0) :
    Mode.next_frame mode t d loop_animation = 0 := by
  unfold Mode.next_frame
  rw [if_pos hd]

/-- Witness for C3 at mode Bounce, `t = 5`, `d = -1`, loop on. -/
theorem c3_nonpositive_duration_zero_witness :
    (-1 : ℚ) ≤ 0 ∧ Mode.next_frame Mode.bounce 5 (-1) true = 0 :=
  ⟨by decide, c3_nonpositive_duration_zero Mode.bounce 5 (-1) true (by decide)⟩

/-- Claim C6: the mirror identity: for `t ≥ 0`, `d > 0` and either loop flag,
    `ReverseBounce.next_frame t d L = d - Bounce.next_frame t d L`. -/
theorem c6_reverse_bounce_mirror (t d : ℚ) (loop_animation : Bool)
    (ht : 0 ≤ t) (hd : 0 < d) :
    Mode.next_frame Mode.reverseBounce t d loop_animation =
      d - Mode.next_frame Mode.bounce t d loop_animation := by
  cases loop_animation <;>
    simp only [Mode.next_frame, hd.not_le, if_false, ite_false, ite_true] <;>
    split_ifs <;> ring

/-- Witness for C6 at `t = 15`, `d = 10`, loop on. -/
theorem c6_reverse_bounce_mirror_witness :
    (0 : ℚ) ≤ 15 ∧ (0 : ℚ) < 10 ∧
      Mode.next_frame Mode.reverseBounce 15 10 true =
        10 - Mode.next_frame Mode.bounce 15 10 true :=
  ⟨by decide, by decide, c6_reverse_bounce_mirror 15 10 true (by decide) (by decide)⟩

/-- Claim C7: for `d > 0`, `Forward.next_frame d d (loop := false) = d`, and
    looping Forward is `d`-periodic in the requested time. -/
theorem c7_forward_boundary_and_period (t d : ℚ) (ht : 0 ≤ t) (hd : 0 < d) :
    Mode.next_frame Mode.forward d d false = d ∧
      Mode.next_frame Mode.forward t d true =
        Mode.next_frame Mode.forward (t + d) d true := by
  constructor
  · simp [Mode.next_frame, hd.not_le]
  · have htd : 0 ≤ t + d := by linarith
    have e1 : frem t d = specMod t d := frem_eq_specMod t d ht hd
    have e2 : frem (t + d) d = specMod (t + d) d := frem_eq_specMod (t + d) d htd hd
    simp [Mode.next_frame, hd.not_le, e1, e2, specMod_period t d hd]

/-- Witness for C7 at `t = 3`, `d = 10`. -/
theorem c7_forward_boundary_and_period_witness :
    (0 : ℚ) ≤ 3 ∧ (0 : ℚ) < 10 ∧
      (Mode.next_frame Mode.forward 10 10 false = 10 ∧
        Mode.next_frame Mode.forward 3 10 true =
          Mode.next_frame Mode.forward (3 + 10) 10 true) :=
  ⟨by decide, by decide, c7_forward_boundary_and_period 3 10 (by decide) (by decide)⟩

/-- Claim C9: for every mode and loop flag, with `t ≥ 0` and `d > 0`, the
    stateless `Mode::next_frame` lands in the closed interval `[0, d]`. -/
theorem c9_next_frame_in_range (mode : Mode) (t d : ℚ) (loop_animation : Bool)
    (ht : 0 ≤ t) (hd : 0 < d) :
    0 ≤ Mode.next_frame mode t d loop_animation ∧
      Mode.next_frame mode t d loop_animation ≤ d := by
  have h2d : (0 : ℚ) < 2 * d := by linarith
  have e1 : frem t d = specMod t d := frem_eq_specMod t d ht hd
  have e2 : frem t (2 * d) = specMod t (2 * d) := frem_eq_specMod t (2 * d) ht h2d
  have n1 : 0 ≤ specMod t d := specMod_nonneg t d hd
  have l1 : specMod t d < d := specMod_lt t d hd
  have n2 : 0 ≤ specMod t (2 * d) := specMod_nonneg t (2 * d) h2d
  have l2 : specMod t (2 * d) < 2 * d := specMod_lt t (2 * d) h2d
  cases mode <;> cases loop_animation <;>
    refine ⟨?_, ?_⟩ <;>
    simp [Mode.next_frame, hd.not_le, e1, e2, le_min_iff, min_le_iff,
      le_max_iff, max_le_iff] <;>
    (try split_ifs) <;>
    first
      | linarith
      | (constructor <;> linarith)

/-- Witness for C9 at mode ReverseBounce, `t = 25`, `d = 10`, loop on. -/
theorem c9_next_frame_in_range_witness :
    (0 : ℚ) ≤ 25 ∧ (0 : ℚ) < 10 ∧
      (0 ≤ Mode.next_frame Mode.reverseBounce 25 10 true ∧
        Mode.next_frame Mode.reverseBounce 25 10 true ≤ 10) :=
  ⟨by decide, by decide, c9_next_frame_in_range Mode.reverseBounce 25 10 true (by decide) (by decide)⟩

namespace Plugin

/-- Playback direction enum `Direction` from `src/lib.rs`. -/
inductive Direction
  | forward
  | reverse
deriving DecidableEq

/-- Playback mode enum `Mode` from `src/lib.rs` (the plugin keeps its own
    copy of the enum, distinct from the one in `src/mode.rs`). -/
inductive Mode
  | forward
  | reverse
  | bounce
  | reverseBounce
deriving DecidableEq

/-- Embedding of `Mode::next_frame` from `src/lib.rs` (the stateful
    frame-stepping discipline): advance `(current_frame, direction)` by one
    tick of `frame_step` within `[start_frame, end_frame]`. -/
def Mode.next_frame (mode : Mode) (current_frame frame_step : ℚ)
    (direction : Direction) (start_frame end_frame : ℚ)
    (loop_animation : Bool) : ℚ × Direction :=
  let next_frame :=
    match direction with
    | Direction.forward => current_frame + frame_step
    | Direction.reverse => current_frame - frame_step
  match mode with
  | Mode.forward =>
      if next_frame ≥ end_frame then
        if loop_animation then (start_frame, direction)
        else (end_frame, direction)
      else (next_frame, direction)
  | Mode.reverse =>
      if next_frame ≤ start_frame then
        if loop_animation then (end_frame, direction)
        else (start_frame, direction)
      else (next_frame, direction)
  | Mode.bounce =>
      match direction with
      | Direction.forward =>
          if next_frame ≥ end_frame then (end_frame, Direction.reverse)
          else (next_frame, direction)
      | Direction.reverse =>
          if next_frame ≤ start_frame then
            if loop_animation then (start_frame, Direction.forward)
            else (start_frame, direction)
          else (next_frame, direction)
  | Mode.reverseBounce =>
      match direction with
      | Direction.reverse =>
          if next_frame ≤ start_frame then (start_frame, Direction.forward)
          else (next_frame, direction)
      | Direction.forward =>
          if next_frame ≥ end_frame then
            if loop_animation then (end_frame, Direction.reverse)
            else (end_frame, direction)
          else (next_frame, direction)

/-- Transition rule of spec section 4.2 for claim C2, amended so that the
    Forward and Reverse modes leave the direction component of the state
    unchanged at their boundaries instead of forcing it. -/
def advance_spec (mode : Mode) (current_frame frame_step : ℚ)
    (direction : Direction) (start_frame end_frame : ℚ)
    (loop_animation : Bool) : ℚ × Direction :=
  let next :=
    match direction with
    | Direction.forward => current_frame + frame_step
    | Direction.reverse => current_frame - frame_step
  match mode, direction with
  | Mode.forward, _ =>
      if next ≥ end_frame then
        if loop_animation then (start_frame, direction)
        else (end_frame, direction)
      else (next, direction)
  | Mode.reverse, _ =>
      if next ≤ start_frame then
        if loop_animation then (end_frame, direction)
        else (start_frame, direction)
      else (next, direction)
  | Mode.bounce, Direction.forward =>
      if next ≥ end_frame then (end_frame, Direction.reverse)
      else (next, Direction.forward)
  | Mode.bounce, Direction.reverse =>
      if next ≤ start_frame then
        if loop_animation then (start_frame, Direction.forward)
        else (start_frame, Direction.reverse)
      else (next, Direction.reverse)
  | Mode.reverseBounce, Direction.reverse =>
      if next ≤ start_frame then (start_frame, Direction.forward)
      else (next, Direction.reverse)
  | Mode.reverseBounce, Direction.forward =>
      if next ≥ end_frame then
        if loop_animation then (end_frame, Direction.reverse)
        else (end_frame, Direction.forward)
      else (next, Direction.forward)

/-- Iterating the stateful advance from a given state, for claim C5. -/
def Mode.iterate (mode : Mode) (frame_step start_frame end_frame : ℚ)
    (loop_animation : Bool) (st : ℚ × Direction) : ℕ → ℚ × Direction
  | 0 => st
  | n + 1 =>
      let p := Mode.iterate mode frame_step start_frame end_frame loop_animation st n
      mode.next_frame p.1 frame_step p.2 start_frame end_frame loop_animation

/-- Counterexample for C2: in mode Forward with direction Reverse, state
    `(current_frame, direction) = (10, Reverse)`, `frame_step = 0`,
    `start_frame = 0`, `end_frame = 10`, loop on: the code keeps the incoming
    direction and returns `(0, Reverse)`, while the claim demands
    `(0, Forward)`. -/
theorem c2_counterexample :
    (0 : ℚ) ≤ 0 ∧ (0 : ℚ) ≤ 10 ∧
      Mode.next_frame Mode.forward 10 0 Direction.reverse 0 10 true =
        (0, Direction.reverse) ∧
      Direction.reverse ≠ Direction.forward :=
  ⟨by norm_num, by norm_num, by norm_num [Mode.next_frame], by decide⟩

/-- Claim C2 (amended): for every state, nonnegative step and ordered frame
    range, the stateful `Mode::next_frame` of lib.rs follows the section 4.2
    transition rule, amended so that Forward and Reverse leave the direction
    component unchanged at their boundaries instead of forcing it. -/
theorem c2_advance_matches_spec (mode : Mode) (current_frame frame_step : ℚ)
    (direction : Direction) (start_frame end_frame : ℚ) (loop_animation : Bool)
    (hs : 0 ≤ frame_step) (hse : start_frame ≤ end_frame) :
    Mode.next_frame mode current_frame frame_step direction start_frame
        end_frame loop_animation =
      advance_spec mode current_frame frame_step direction start_frame
        end_frame loop_animation := by
  cases mode <;> cases direction <;> rfl

/-- Witness for C2 at mode Bounce, state `(9, Forward)`, step `2`,
    range `[0, 10]`, loop off. -/
theorem c2_advance_matches_spec_witness :
    (0 : ℚ) ≤ 2 ∧ (0 : ℚ) ≤ 10 ∧
      Mode.next_frame Mode.bounce 9 2 Direction.forward 0 10 false =
        advance_spec Mode.bounce 9 2 Direction.forward 0 10 false :=
  ⟨by norm_num, by norm_num,
    c2_advance_matches_spec Mode.bounce 9 2 Direction.forward 0 10 false
      (by norm_num) (by norm_num)⟩

theorem forward_step_bounds (c s a b : ℚ) (hs : 0 ≤ s) (h1 : a ≤ c)
    (h2 : c ≤ b) :
    (Mode.next_frame Mode.forward c s Direction.forward a b false).2 =
        Direction.forward ∧
      c ≤ (Mode.next_frame Mode.forward c s Direction.forward a b false).1 ∧
      a ≤ (Mode.next_frame Mode.forward c s Direction.forward a b false).1 ∧
      (Mode.next_frame Mode.forward c s Direction.forward a b false).1 ≤ b := by
  simp only [Mode.next_frame, Bool.false_eq_true, if_false]
  split_ifs with h
  · exact ⟨rfl, h2, le_trans h1 h2, le_refl b⟩
  · have hlt : c + s < b := lt_of_not_ge h
    refine ⟨rfl, ?_, ?_, ?_⟩
    · show c ≤ c + s
      linarith
    · show a ≤ c + s
      linarith
    · show c + s ≤ b
      linarith

theorem forward_iterate_inv (c s a b : ℚ) (hs : 0 ≤ s) (h1 : a ≤ c)
    (h2 : c ≤ b) (n : ℕ) :
    (Mode.iterate Mode.forward s a b false (c, Direction.forward) n).2 =
        Direction.forward ∧
      a ≤ (Mode.iterate Mode.forward s a b false (c, Direction.forward) n).1 ∧
      (Mode.iterate Mode.forward s a b false (c, Direction.forward) n).1 ≤ b := by
  induction n with
  | zero => exact ⟨rfl, h1, h2⟩
  | succ n ih =>
      obtain ⟨hdn, hA, hB⟩ := ih
      simp only [Mode.iterate]
      rw [hdn]
      have hstep := forward_step_bounds
        (Mode.iterate Mode.forward s a b false (c, Direction.forward) n).1
        s a b hs hA hB
      exact ⟨hstep.1, hstep.2.2.1, hstep.2.2.2⟩

/-- Claim C5: frame-stepping in mode Forward with loop off and a nonnegative
    step, starting inside `[start_frame, end_frame]` with direction Forward,
    produces a non-decreasing frame sequence bounded by `end_frame`, and the
    state `(end_frame, Forward)` is a fixed point of the advance. -/
theorem c5_forward_noloop_monotone (c s a b : ℚ) (hs : 0 ≤ s) (h1 : a ≤ c)
    (h2 : c ≤ b) :
    (∀ n : ℕ,
      (Mode.iterate Mode.forward s a b false (c, Direction.forward) n).1 ≤
          (Mode.iterate Mode.forward s a b false (c, Direction.forward)
            (n + 1)).1 ∧
        (Mode.iterate Mode.forward s a b false (c, Direction.forward) n).1 ≤ b) ∧
      Mode.next_frame Mode.forward b s Direction.forward a b false =
        (b, Direction.forward) := by
  constructor
  · intro n
    obtain ⟨hdn, hA, hB⟩ := forward_iterate_inv c s a b hs h1 h2 n
    have hstep := forward_step_bounds
      (Mode.iterate Mode.forward s a b false (c, Direction.forward) n).1
      s a b hs hA hB
    refine ⟨?_, hB⟩
    simp only [Mode.iterate]
    rw [hdn]
    exact hstep.2.1
  · simp only [Mode.next_frame, Bool.false_eq_true, if_false]
    rw [if_pos (by linarith : b + s ≥ b)]

/-- Witness for C5 at `c = 3`, `s = 4`, range `[0, 10]`, checked at `n = 2`. -/
theorem c5_forward_noloop_monotone_witness :
    (0 : ℚ) ≤ 4 ∧ (0 : ℚ) ≤ 3 ∧ (3 : ℚ) ≤ 10 ∧
      ((Mode.iterate Mode.forward 4 0 10 false (3, Direction.forward) 2).1 ≤
          (Mode.iterate Mode.forward 4 0 10 false (3, Direction.forward) 3).1 ∧
        (Mode.iterate Mode.forward 4 0 10 false (3, Direction.forward) 2).1 ≤ 10) :=
  ⟨by norm_num, by norm_num, by norm_num,
    (c5_forward_noloop_monotone 3 4 0 10 (by norm_num) (by norm_num)
      (by norm_num)).1 2⟩

/-- Counterexample for C10: mode Forward with direction Reverse, state
    `(0, Reverse)`, step `1`, range `[0, 10]`: the advanced frame is `-1`,
    strictly below `start_frame`. -/
theorem c10_counterexample :
    (0 : ℚ) ≤ 1 ∧ (0 : ℚ) ≤ 0 ∧ (0 : ℚ) ≤ 10 ∧
      Mode.next_frame Mode.forward 0 1 Direction.reverse 0 10 false =
        (-1, Direction.reverse) ∧
      ¬ (0 : ℚ) ≤ -1 :=
  ⟨by norm_num, by norm_num, by norm_num, by norm_num [Mode.next_frame],
    by norm_num⟩

/-- Claim C10 (amended): the stateful advance preserves
    `start_frame ≤ current_frame ≤ end_frame` for every mode and loop flag,
    provided that in mode Forward the state's direction is Forward and in
    mode Reverse it is Reverse (Bounce and ReverseBounce preserve it for
    both directions). -/
theorem c10_invariant_preserved (mode : Mode) (direction : Direction)
    (c s a b : ℚ) (loop_animation : Bool) (hs : 0 ≤ s) (h1 : a ≤ c)
    (h2 : c ≤ b)
    (hf : mode = Mode.forward → direction = Direction.forward)
    (hr : mode = Mode.reverse → direction = Direction.reverse) :
    a ≤ (Mode.next_frame mode c s direction a b loop_animation).1 ∧
      (Mode.next_frame mode c s direction a b loop_animation).1 ≤ b := by
  cases mode <;> cases direction <;>
    first
      | exact absurd (hf rfl) (by decide)
      | exact absurd (hr rfl) (by decide)
      | (simp only [Mode.next_frame] ;
          split_ifs <;> refine ⟨?_, ?_⟩ <;> simp only [] <;> linarith)

/-- Witness for C10 at mode Bounce, state `(2, Reverse)`, step `5`,
    range `[0, 10]`, loop off. -/
theorem c10_invariant_preserved_witness :
    (0 : ℚ) ≤ 5 ∧ (0 : ℚ) ≤ 2 ∧ (2 : ℚ) ≤ 10 ∧
      (0 ≤ (Mode.next_frame Mode.bounce 2 5 Direction.reverse 0 10 false).1 ∧
        (Mode.next_frame Mode.bounce 2 5 Direction.reverse 0 10 false).1 ≤ 10) :=
  ⟨by norm_num, by norm_num, by norm_num,
    c10_invariant_preserved Mode.bounce Direction.reverse 2 5 0 10 false
      (by norm_num) (by norm_num) (by norm_num) (by decide) (by decide)⟩

end Plugin

/-- Embedding of `impl From<&CStr> for Mode` from `src/mode.rs`: C strings are
    idealized as Lean strings. Unrecognized names fall back to Forward. -/
def Mode.fromString (value : String) : Mode :=
  if value = "forward" then Mode.forward
  else if value = "reverse" then Mode.reverse
  else if value = "bounce" then Mode.bounce
  else if value = "reverse-bounce" then Mode.reverseBounce
  else Mode.forward

/-- Fit policy enum wrapped by `src/fit.rs` (the `dotlottie_rs::Fit` variants
    named there). -/
inductive Fit
  | contain
  | fill
  | cover
  | fitWidth
  | fitHeight
  | none
deriving DecidableEq

/-- Embedding of `impl From<&CStr> for Fit` from `src/fit.rs`: unrecognized
    names fall back to Contain. -/
def Fit.fromString (value : String) : Fit :=
  if value = "contain" then Fit.contain
  else if value = "fill" then Fit.fill
  else if value = "cover" then Fit.cover
  else if value = "fit-width" then Fit.fitWidth
  else if value = "fit-height" then Fit.fitHeight
  else if value = "none" then Fit.none
  else Fit.contain

/-- Claim C8: the playback-mode parser maps the four documented names to the
    corresponding mode and every string other than those four to Forward, and
    the fit-policy parser maps the six documented names to the corresponding
    policy and every string other than those six to Contain; both are total,
    so neither signals an error. The two parsers are independent: a fit name
    is an unrecognized mode name and vice versa. -/
theorem c8_parsers_default :
    (Mode.fromString "forward" = Mode.forward ∧
      Mode.fromString "reverse" = Mode.reverse ∧
      Mode.fromString "bounce" = Mode.bounce ∧
      Mode.fromString "reverse-bounce" = Mode.reverseBounce ∧
      ∀ s : String, s ≠ "forward" → s ≠ "reverse" → s ≠ "bounce" →
        s ≠ "reverse-bounce" → Mode.fromString s = Mode.forward) ∧
    (Fit.fromString "contain" = Fit.contain ∧
      Fit.fromString "fill" = Fit.fill ∧
      Fit.fromString "cover" = Fit.cover ∧
      Fit.fromString "fit-width" = Fit.fitWidth ∧
      Fit.fromString "fit-height" = Fit.fitHeight ∧
      Fit.fromString "none" = Fit.none ∧
      ∀ s : String, s ≠ "contain" → s ≠ "fill" → s ≠ "cover" →
        s ≠ "fit-width" → s ≠ "fit-height" → s ≠ "none" →
        Fit.fromString s = Fit.contain) := by
  refine ⟨⟨by rfl, by rfl, by rfl, by rfl, ?_⟩,
    ⟨by rfl, by rfl, by rfl, by rfl, by rfl, by rfl, ?_⟩⟩
  · intro s hm1 hm2 hm3 hm4
    simp [Mode.fromString, hm1, hm2, hm3, hm4]
  · intro s hf1 hf2 hf3 hf4 hf5 hf6
    simp [Fit.fromString, hf1, hf2, hf3, hf4, hf5, hf6]

/-- Witness for C8 at the cross cases: the fit name `"contain"` is an
    unrecognized mode name, and the mode name `"bounce"` an unrecognized fit
    name. -/
theorem c8_parsers_default_witness :
    Mode.fromString "contain" = Mode.forward ∧
      Fit.fromString "bounce" = Fit.contain :=
  ⟨c8_parsers_default.1.2.2.2.2 "contain" (by decide) (by decide) (by decide)
      (by decide),
    c8_parsers_default.2.2.2.2.2.2.2 "bounce" (by decide) (by decide)
      (by decide) (by decide) (by decide) (by decide)⟩

/-- Modelled from the spec: the fit/layout transform
    `dotlottie_rs::Layout::compute_layout_transform` called by
    `L0ttiePlugin::compute_layout` belongs to the external `dotlottie_rs`
    crate and is not part of this repository's sources; the definition below
    follows spec section 4.3: scale ratios `rw = container_w / content_w`,
    `rh = container_h / content_h`, per-policy scale, and translation by the
    leftover space times the anchor on each axis. -/
def compute_layout_transform (fit : Fit) (anchor_x anchor_y : ℚ)
    (container_w container_h content_w content_h : ℚ) : ℚ × ℚ × ℚ × ℚ :=
  let rw := container_w / content_w
  let rh := container_h / content_h
  let scale_x :=
    match fit with
    | Fit.contain => min rw rh
    | Fit.cover => max rw rh
    | Fit.fill => rw
    | Fit.fitWidth => rw
    | Fit.fitHeight => rh
    | Fit.none => 1
  let scale_y :=
    match fit with
    | Fit.contain => min rw rh
    | Fit.cover => max rw rh
    | Fit.fill => rh
    | Fit.fitWidth => rw
    | Fit.fitHeight => rh
    | Fit.none => 1
  let translate_x := (container_w - content_w * scale_x) * anchor_x
  let translate_y := (container_h - content_h * scale_y) * anchor_y
  (scale_x, scale_y, translate_x, translate_y)

/-- Claim C4: the Contain policy scales both axes by
    `min (container_w / content_w) (container_h / content_h)` and translates
    by the leftover space times the anchor; concretely, container 200×100,
    content 100×100, anchor (1/2, 1/2) yields scale (1, 1) and
    translation (50, 0). -/
theorem c4_contain_layout (anchor_x anchor_y container_w container_h
    content_w content_h : ℚ) (hw : 0 < content_w) (hh : 0 < content_h) :
    compute_layout_transform Fit.contain (1/2) (1/2) 200 100 100 100 =
        (1, 1, 50, 0) ∧
      compute_layout_transform Fit.contain anchor_x anchor_y container_w
          container_h content_w content_h =
        (min (container_w / content_w) (container_h / content_h),
          min (container_w / content_w) (container_h / content_h),
          (container_w -
              content_w * min (container_w / content_w)
                (container_h / content_h)) * anchor_x,
          (container_h -
              content_h * min (container_w / content_w)
                (container_h / content_h)) * anchor_y) := by
  constructor
  · norm_num [compute_layout_transform]
  · rfl

/-- Witness for C4 at the concrete scenario of the spec. -/
theorem c4_contain_layout_witness :
    (0 : ℚ) < 100 ∧
      compute_layout_transform Fit.contain (1/2) (1/2) 200 100 100 100 =
        (1, 1, 50, 0) :=
  ⟨by norm_num,
    (c4_contain_layout (1/2) (1/2) 200 100 100 100 (by norm_num)
      (by norm_num)).1⟩

end L0ttie
